import Mathlib

/-!
Verification of the `media_monitoring_poc` store and enrichment pipeline.

This file gives a shallow embedding, in Lean 4, of the parts of the
repository that the specification talks about:

* `media_monitor/utils.py` — `sha256_text`, `clean_text`, `json_dumps`;
* `media_monitor/pipeline.py` — `_make_id`;
* `media_monitor/db/store.py` — the `Store` operations `upsert_items`,
  `list_unenriched`, `update_enrichment`, `update_content`, `query_items`;
* `media_monitor/preprocess/enrich.py` — `_fallback_keyword_enrichment`
  and `enrich_pending`.

Machine integers are modelled as `Nat` with explicit `% 2 ^ 32` where the
SHA-256 rounds overflow; fallible operations return `Option`; the SQLite
table behind `Store` is modelled as an association list from primary key
to row, in insertion order, which is the order an unordered `SELECT`
returns rows from a single-table scan.  The nondeterministic
collaborators of `enrich_pending` (the article fetcher, the clock and the
Gemini classification client) are passed in explicitly as an environment.
-/

set_option maxRecDepth 1000000

namespace MediaMonitor

/-! ### SHA-256 over `Nat`, modelling Python's `hashlib.sha256`

`utils.sha256_text` calls `hashlib.sha256(s.encode("utf-8")).hexdigest()`.
The functions below are the FIPS 180-4 algorithm, executable over `Nat`
(32-bit words are `Nat` values kept below `2 ^ 32` by explicit `%`), and
are validated against the standard test vectors further down.
-/

/-- One 32-bit modulus, `2 ^ 32`. -/
def w32 : Nat := 4294967296

/-- Right rotation of a 32-bit word held in a `Nat`. -/
def rotr (x n : Nat) : Nat :=
  ((x >>> n) ||| (x <<< (32 - n))) % w32

/-- UTF-8 encoding of one scalar value, as Python's `str.encode("utf-8")`
produces for each character. -/
def utf8EncodeChar (c : Char) : List Nat :=
  let n := c.toNat
  if n < 128 then [n]
  else if n < 2048 then [192 + n / 64, 128 + n % 64]
  else if n < 65536 then [224 + n / 4096, 128 + (n / 64) % 64, 128 + n % 64]
  else [240 + n / 262144, 128 + (n / 4096) % 64, 128 + (n / 64) % 64, 128 + n % 64]

/-- UTF-8 byte sequence of a string (`s.encode("utf-8")`). -/
def utf8Bytes (s : String) : List Nat :=
  s.data.flatMap utf8EncodeChar

/-- Big-endian byte serialisation of `x` on `k` bytes. -/
def toBytesBE : Nat → Nat → List Nat
  | 0, _ => []
  | k + 1, x => toBytesBE k (x / 256) ++ [x % 256]

/-- SHA-256 padding: append `0x80`, zero bytes up to 56 mod 64, then the
bit length on 8 bytes. -/
def padMsg (msg : List Nat) : List Nat :=
  let L := msg.length
  let padZeros := (119 - L % 64) % 64
  msg ++ [128] ++ List.replicate padZeros 0 ++ toBytesBE 8 (L * 8)

/-- Fuel-driven splitting of a byte list into 64-byte blocks (structural
recursion so that the kernel can evaluate it). -/
def toBlocksFuel : Nat → List Nat → List (List Nat)
  | 0, _ => []
  | fuel + 1, l => if l.isEmpty then [] else l.take 64 :: toBlocksFuel fuel (l.drop 64)

/-- Split a byte list into 64-byte blocks. -/
def toBlocks (l : List Nat) : List (List Nat) :=
  toBlocksFuel l.length l

/-- Big-endian packing of bytes into 32-bit words. -/
def bytesToWords : List Nat → List Nat
  | a :: b :: c :: d :: rest =>
      (a * 16777216 + b * 65536 + c * 256 + d) :: bytesToWords rest
  | _ => []

/-- Message-schedule extension; `rw` is the schedule so far, reversed, so
the recently produced words sit at the head. -/
def extendW (rw : List Nat) : Nat → List Nat
  | 0 => rw
  | n + 1 =>
    let x15 := rw.getD 14 0
    let x2 := rw.getD 1 0
    let x16 := rw.getD 15 0
    let x7 := rw.getD 6 0
    let s0 := rotr x15 7 ^^^ rotr x15 18 ^^^ (x15 >>> 3)
    let s1 := rotr x2 17 ^^^ rotr x2 19 ^^^ (x2 >>> 10)
    extendW (((x16 + s0 + x7 + s1) % w32) :: rw) n

/-- The 64-word message schedule of one block. -/
def scheduleW (ws : List Nat) : List Nat :=
  (extendW ws.reverse 48).reverse

/-- The SHA-256 round constants. -/
def kConsts : List Nat :=
  [1116352408, 1899447441, 3049323471, 3921009573, 961987163,
   1508970993, 2453635748, 2870763221, 3624381080, 310598401,
   607225278, 1426881987, 1925078388, 2162078206, 2614888103,
   3248222580, 3835390401, 4022224774, 264347078, 604807628,
   770255983, 1249150122, 1555081692, 1996064986, 2554220882,
   2821834349, 2952996808, 3210313671, 3336571891, 3584528711,
   113926993, 338241895, 666307205, 773529912, 1294757372,
   1396182291, 1695183700, 1986661051, 2177026350, 2456956037,
   2730485921, 2820302411, 3259730800, 3345764771, 3516065817,
   3600352804, 4094571909, 275423344, 430227734, 506948616,
   659060556, 883997877, 958139571, 1322822218, 1537002063,
   1747873779, 1955562222, 2024104815, 2227730452, 2361852424,
   2428436474, 2756734187, 3204031479, 3329325298]

/-- The SHA-256 initial hash values. -/
def hInit : List Nat :=
  [1779033703, 3144134277, 1013904242, 2773480762,
   1359893119, 2600822924, 528734635, 1541459225]

/-- Working registers of the compression loop. -/
structure Hs where
  a : Nat
  b : Nat
  c : Nat
  d : Nat
  e : Nat
  f : Nat
  g : Nat
  h : Nat

/-- Load the eight registers from a word list. -/
def hsOfList (l : List Nat) : Hs :=
  ⟨l.getD 0 0, l.getD 1 0, l.getD 2 0, l.getD 3 0,
   l.getD 4 0, l.getD 5 0, l.getD 6 0, l.getD 7 0⟩

/-- One SHA-256 round, consuming one `(k, w)` pair. -/
def shaRound (s : Hs) (kw : Nat × Nat) : Hs :=
  let bigS1 := rotr s.e 6 ^^^ rotr s.e 11 ^^^ rotr s.e 25
  let ch := (s.e &&& s.f) ^^^ ((s.e ^^^ 4294967295) &&& s.g)
  let temp1 := (s.h + bigS1 + ch + kw.1 + kw.2) % w32
  let bigS0 := rotr s.a 2 ^^^ rotr s.a 13 ^^^ rotr s.a 22
  let maj := (s.a &&& s.b) ^^^ (s.a &&& s.c) ^^^ (s.b &&& s.c)
  let temp2 := (bigS0 + maj) % w32
  ⟨(temp1 + temp2) % w32, s.a, s.b, s.c, (s.d + temp1) % w32, s.e, s.f, s.g⟩

/-- Compress one 64-byte block into the running hash words. -/
def compress (hs : List Nat) (block : List Nat) : List Nat :=
  let ws := scheduleW (bytesToWords block)
  let f := (List.zip kConsts ws).foldl shaRound (hsOfList hs)
  List.zipWith (fun x y => (x + y) % w32) hs [f.a, f.b, f.c, f.d, f.e, f.f, f.g, f.h]

/-- The eight 32-bit hash words of a byte message. -/
def sha256Words (msg : List Nat) : List Nat :=
  (toBlocks (padMsg msg)).foldl compress hInit

/-- Big-endian combination of 32-bit words into one `Nat`. -/
def combineWords (ws : List Nat) : Nat :=
  ws.foldl (fun acc w => acc * w32 + w % w32) 0

/-- The SHA-256 digest of a byte message, as a 256-bit natural number. -/
def sha256Nat (msg : List Nat) : Nat :=
  combineWords (sha256Words msg)

/-- Lower-case hexadecimal digit. -/
def hexDigitChar (n : Nat) : Char :=
  if n < 10 then Char.ofNat (48 + n) else Char.ofNat (87 + n)

/-- Fixed-width big-endian hexadecimal rendering of a `Nat`. -/
def natToHex : Nat → Nat → List Char
  | 0, _ => []
  | k + 1, x => natToHex k (x / 16) ++ [hexDigitChar (x % 16)]

/-- Model of `utils.sha256_text`: the hex-encoded SHA-256 digest of the
UTF-8 encoding of `s` (`hashlib.sha256(s.encode("utf-8")).hexdigest()`). -/
def sha256_text (s : String) : String :=
  String.mk (natToHex 64 (sha256Nat (utf8Bytes s)))

/-- Model of `pipeline._make_id`: `sha256_text(f"{platform}|{url or ''}")`.
For `url : str` the Python expression `url or ''` is the identity (the
empty string is replaced by the empty string), so it is dropped here. -/
def make_id (platform url : String) : String :=
  sha256_text (platform ++ "|" ++ url)

/-! ### The `media_items` table (`db/models.py`) and the `Store` (`db/store.py`)

A column value of the `media_items` table is a string, a boolean, or SQL
`NULL` (Python `None`).  A row (`MediaItem`) has the 26 columns declared
in `db/models.py`.  The store is an association list from primary key to
row, in insertion order.
-/

/-- A SQLite column value of the `media_items` table: `NULL`, a string
(`String`/`Text` columns, which includes the JSON-serialised list and
dict columns), or a boolean (`is_editorial`). -/
inductive Value
  | null
  | str (s : String)
  | bool (b : Bool)
deriving DecidableEq, Repr

/-- The column names of the `media_items` table, as declared in
`db/models.py`. -/
inductive FieldName
  | id
  | platform
  | source_type
  | publisher_or_author
  | url
  | title
  | summary
  | published_at
  | ingested_at
  | content_text
  | content_fetched_at
  | content_status
  | content_hash
  | topics
  | actors
  | locations
  | language
  | is_editorial
  | sentiment
  | tags_json
  | signals_json
  | raw_json
  | enriched_at
  | enrich_model
  | enrich_status
  | enrich_error
deriving DecidableEq, Repr

/-- One row of the `media_items` table (the ORM object `MediaItem`). -/
structure Item where
  id : Value
  platform : Value
  source_type : Value
  publisher_or_author : Value
  url : Value
  title : Value
  summary : Value
  published_at : Value
  ingested_at : Value
  content_text : Value
  content_fetched_at : Value
  content_status : Value
  content_hash : Value
  topics : Value
  actors : Value
  locations : Value
  language : Value
  is_editorial : Value
  sentiment : Value
  tags_json : Value
  signals_json : Value
  raw_json : Value
  enriched_at : Value
  enrich_model : Value
  enrich_status : Value
  enrich_error : Value
deriving DecidableEq, Repr

/-- Read a column of a row (`getattr(obj, k)`). -/
def getField (it : Item) : FieldName → Value
  | .id => it.id
  | .platform => it.platform
  | .source_type => it.source_type
  | .publisher_or_author => it.publisher_or_author
  | .url => it.url
  | .title => it.title
  | .summary => it.summary
  | .published_at => it.published_at
  | .ingested_at => it.ingested_at
  | .content_text => it.content_text
  | .content_fetched_at => it.content_fetched_at
  | .content_status => it.content_status
  | .content_hash => it.content_hash
  | .topics => it.topics
  | .actors => it.actors
  | .locations => it.locations
  | .language => it.language
  | .is_editorial => it.is_editorial
  | .sentiment => it.sentiment
  | .tags_json => it.tags_json
  | .signals_json => it.signals_json
  | .raw_json => it.raw_json
  | .enriched_at => it.enriched_at
  | .enrich_model => it.enrich_model
  | .enrich_status => it.enrich_status
  | .enrich_error => it.enrich_error

/-- Write a column of a row (`setattr(obj, k, v)`). -/
def setField (it : Item) : FieldName → Value → Item
  | .id, v => { it with id := v }
  | .platform, v => { it with platform := v }
  | .source_type, v => { it with source_type := v }
  | .publisher_or_author, v => { it with publisher_or_author := v }
  | .url, v => { it with url := v }
  | .title, v => { it with title := v }
  | .summary, v => { it with summary := v }
  | .published_at, v => { it with published_at := v }
  | .ingested_at, v => { it with ingested_at := v }
  | .content_text, v => { it with content_text := v }
  | .content_fetched_at, v => { it with content_fetched_at := v }
  | .content_status, v => { it with content_status := v }
  | .content_hash, v => { it with content_hash := v }
  | .topics, v => { it with topics := v }
  | .actors, v => { it with actors := v }
  | .locations, v => { it with locations := v }
  | .language, v => { it with language := v }
  | .is_editorial, v => { it with is_editorial := v }
  | .sentiment, v => { it with sentiment := v }
  | .tags_json, v => { it with tags_json := v }
  | .signals_json, v => { it with signals_json := v }
  | .raw_json, v => { it with raw_json := v }
  | .enriched_at, v => { it with enriched_at := v }
  | .enrich_model, v => { it with enrich_model := v }
  | .enrich_status, v => { it with enrich_status := v }
  | .enrich_error, v => { it with enrich_error := v }

/-- The row all of whose columns are `NULL` — the state of an ORM object
before any constructor keyword is applied. -/
def emptyItem : Item :=
  ⟨.null, .null, .null, .null, .null, .null, .null, .null, .null, .null,
   .null, .null, .null, .null, .null, .null, .null, .null, .null, .null,
   .null, .null, .null, .null, .null, .null⟩

/-- The table contents: rows keyed by primary key, in insertion order. -/
abbrev Store := List (String × Item)

/-- A normalized record passed to `upsert_items`: a Python dict from
column name to value, modelled as an association list in iteration
order (dict keys are unique for the records the pipeline builds). -/
abbrev Rec := List (FieldName × Value)

/-- First binding of a key in a record (dict lookup). -/
def recGet : Rec → FieldName → Option Value
  | [], _ => none
  | (k, v) :: rest, f => if k = f then some v else recGet rest f

/-- Last binding of a key in a record; this is the value that survives a
left-to-right sequence of `setattr` calls. -/
def recGetLast : Rec → FieldName → Option Value
  | [], _ => none
  | (k, v) :: rest, f =>
    match recGetLast rest f with
    | some w => some w
    | none => if k = f then some v else none

/-- The primary key a record carries (`it["id"]`), when it is a string. -/
def recId (r : Rec) : Option String :=
  match recGet r FieldName.id with
  | some (Value.str s) => some s
  | _ => none

/-- `s.get(MediaItem, i)`: the row with primary key `i`, if present. -/
def findItem : Store → String → Option Item
  | [], _ => none
  | (k, it) :: rest, i => if k = i then some it else findItem rest i

/-- Apply a function to every row with the given primary key. -/
def updateItem (st : Store) (i : String) (g : Item → Item) : Store :=
  st.map fun p => if p.1 = i then (p.1, g p.2) else p

/-- Apply every binding of a record to a row by `setattr`, left to right
(`MediaItem(**it)` builds the row this way from the all-`NULL` state). -/
def setAll (it : Item) (r : Rec) : Item :=
  r.foldl (fun acc kv => setField acc kv.1 kv.2) it

/-- The protected-field set of `Store.upsert_items` (`store.py`,
lines 37–54), copied verbatim from the source. -/
def protected_fields : List FieldName :=
  [.topics, .actors, .locations, .language, .is_editorial, .sentiment,
   .tags_json, .signals_json, .content_text, .content_fetched_at,
   .content_status, .content_hash, .enriched_at, .enrich_model,
   .enrich_status, .enrich_error]

/-- The merge loop of `upsert_items`: every binding of the record is
applied by `setattr` unless its key is protected. -/
def mergeItem (it : Item) (r : Rec) : Item :=
  r.foldl (fun acc kv => if kv.1 ∈ protected_fields then acc else setField acc kv.1 kv.2) it

/-- One iteration of the `upsert_items` loop.  Returns the new store and
whether the record was inserted (`true`) or merged (`false`); `none`
models the `KeyError` a record without a string `"id"` would raise.
`Session.get` sees the rows added earlier in the same call because the
session autoflushes before it queries. -/
def upsertOne (st : Store) (r : Rec) : Option (Store × Bool) :=
  match recId r with
  | none => none
  | some i =>
    match findItem st i with
    | none => some (st ++ [(i, setAll emptyItem r)], true)
    | some it => some (updateItem st i (fun _ => mergeItem it r), false)

/-- Model of `Store.upsert_items`: apply the records in order, counting
`(inserted, updated)`. -/
def upsert_items (st : Store) (items : List Rec) : Option (Store × Nat × Nat) :=
  items.foldl
    (fun acc r =>
      match acc with
      | none => none
      | some (s, ins, upd) =>
        match upsertOne s r with
        | none => none
        | some (s', true) => some (s', ins + 1, upd)
        | some (s', false) => some (s', ins, upd + 1))
    (some (st, 0, 0))

/-- Model of `Store.list_unenriched`: the rows whose `enriched_at` is
`NULL`, in table order, truncated to `limit`. -/
def list_unenriched (st : Store) (limit : Nat) : List (String × Item) :=
  (st.filter fun p => getField p.2 FieldName.enriched_at = Value.null).take limit

/-- Python truthiness of an optional string: `None` and `""` are falsy. -/
def pyTruthy : Option String → Bool
  | none => false
  | some s => !(s = "")

/-- `None ↦ NULL`, `some s ↦ s` — how an `Optional[str]` argument lands
in a column. -/
def optStr : Option String → Value
  | none => Value.null
  | some s => Value.str s

/-- `None ↦ NULL`, `some b ↦ b` — how an `Optional[bool]` argument lands
in a column. -/
def optBool : Option Bool → Value
  | none => Value.null
  | some b => Value.bool b

/-- JSON string escaping for the fragment `json.dumps` needs on the
strings this development serialises (quote, backslash and the common
control characters; `ensure_ascii=False` leaves other characters as
they are). -/
def jsonEscapeChar (c : Char) : List Char :=
  if c = '\x22' then ['\\', '\x22']
  else if c = '\\' then ['\\', '\\']
  else if c = '\n' then ['\\', 'n']
  else if c = '\t' then ['\\', 't']
  else if c = '\r' then ['\\', 'r']
  else [c]

/-- Model of `utils.json_dumps` on a list of strings
(`json.dumps(obj, ensure_ascii=False, separators=(",", ":"))`). -/
def json_dumps_list (l : List String) : String :=
  "[" ++ String.intercalate ","
    (l.map fun s => "\x22" ++ String.mk (s.data.flatMap jsonEscapeChar) ++ "\x22") ++ "]"

/-- Model of `Store.update_enrichment` (`store.py`, lines 84–117): write
the classification columns of the row `item_id`, serialising the list
arguments with `json_dumps`; a missing row is left untouched.  The
`tags_json` dict argument is modelled by its `json_dumps` serialisation,
which is all the store keeps of it. -/
def enrichApply (topics actors locations : List String)
    (language : Option String) (is_editorial : Option Bool)
    (sentiment : Option String) (tags_json : String)
    (model status : String) (error enriched_at : Option String)
    (it : Item) : Item :=
  setAll it
    [(.topics, .str (json_dumps_list topics)),
     (.actors, .str (json_dumps_list actors)),
     (.locations, .str (json_dumps_list locations)),
     (.language, optStr language),
     (.is_editorial, optBool is_editorial),
     (.sentiment, optStr sentiment),
     (.tags_json, .str tags_json),
     (.enrich_model, .str model),
     (.enrich_status, .str status),
     (.enrich_error, optStr error),
     (.enriched_at, optStr enriched_at)]

/-- Model of `Store.update_enrichment` on the store: apply the column
writes to the row `item_id`; a missing row is left untouched. -/
def update_enrichment (st : Store) (item_id : String)
    (topics actors locations : List String)
    (language : Option String) (is_editorial : Option Bool)
    (sentiment : Option String) (tags_json : String)
    (model status : String) (error enriched_at : Option String) : Store :=
  match findItem st item_id with
  | none => st
  | some _ =>
    updateItem st item_id
      (enrichApply topics actors locations language is_editorial sentiment
        tags_json model status error enriched_at)

/-- Model of `Store.update_content` (`store.py`, lines 122–142): write
the crawled-content columns of the row `item_id`; the stored
`content_hash` is only replaced when the argument is truthy (neither
`None` nor `""`). -/
def contentApply (content_text : String) (fetched_at : Option String)
    (status : String) (content_hash : Option String) (it : Item) : Item :=
  let it := setField it .content_text (.str content_text)
  let it := setField it .content_fetched_at (optStr fetched_at)
  let it := setField it .content_status (.str status)
  if pyTruthy content_hash then
    setField it .content_hash (.str (content_hash.getD ""))
  else it

/-- Model of `Store.update_content` on the store: apply the
crawled-content column writes to the row `item_id`; a missing row is
left untouched. -/
def update_content (st : Store) (item_id : String) (content_text : String)
    (fetched_at : Option String) (status : String)
    (content_hash : Option String) : Store :=
  match findItem st item_id with
  | none => st
  | some _ =>
    updateItem st item_id (contentApply content_text fetched_at status content_hash)

/-! ### `Store.query_items` and the JSON list deserialiser

`query_items` builds a `SELECT` with optional `WHERE` clauses, truncates
it with `LIMIT`, and only then applies the `topics_any` post-filter in
Python, deserialising the stored `topics` column with `json_loads`.
`json_loads` is modelled on the one JSON shape the store ever writes to
`topics` — a flat list of strings as produced by `json_dumps` — returning
`none` (the `except` branch) otherwise.
-/

/-- Parse the body of a JSON string literal after the opening quote;
returns the decoded string and the input after the closing quote. -/
def parseStrBody (acc : List Char) : List Char → Option (String × List Char)
  | [] => none
  | '\\' :: c :: rest =>
    let dec :=
      if c = 'n' then '\n'
      else if c = 't' then '\t'
      else if c = 'r' then '\r'
      else c
    parseStrBody (dec :: acc) rest
  | '\x22' :: rest => some (String.mk acc.reverse, rest)
  | c :: rest => parseStrBody (c :: acc) rest

/-- Parse a comma-separated sequence of JSON string literals up to the
closing bracket; `fuel` bounds the number of elements. -/
def parseElems : Nat → List Char → Option (List String × List Char)
  | 0, _ => none
  | fuel + 1, cs =>
    match cs with
    | '\x22' :: rest =>
      match parseStrBody [] rest with
      | none => none
      | some (s, rest2) =>
        match rest2 with
        | ']' :: rest3 => some ([s], rest3)
        | ',' :: rest4 =>
          match parseElems fuel rest4 with
          | some (l, r) => some (s :: l, r)
          | none => none
        | _ => none
    | _ => none

/-- Model of `utils.json_loads` restricted to flat string lists, the only
shape the store writes into the `topics` column; anything else is
`none` (in `query_items` the surrounding `try`/`except` turns that into
`[]`). -/
def json_loads_strlist (s : String) : Option (List String) :=
  match s.data with
  | '[' :: ']' :: [] => some []
  | '[' :: rest =>
    match parseElems (rest.length + 1) rest with
    | some (l, []) => some l
    | _ => none
  | _ => none

/-- The deserialised topic list of a row:
`json_loads(r.topics) if r.topics else []`, with the `except` branch
collapsing failures to `[]`. -/
def topicsOf (it : Item) : List String :=
  match getField it FieldName.topics with
  | Value.str s => if s = "" then [] else (json_loads_strlist s).getD []
  | _ => []

/-- String comparison of a possibly-`NULL` column against a bound, as
SQLite evaluates `col >= v` (a `NULL` column never satisfies it). -/
def valueGE (v : Value) (bound : String) : Bool :=
  match v with
  | Value.str s => decide (bound ≤ s)
  | _ => false

/-- Equality of a possibly-`NULL` column against a bound, as SQLite
evaluates `col == v`. -/
def valueEq (v : Value) (bound : String) : Bool :=
  match v with
  | Value.str s => s = bound
  | _ => false

/-- The `WHERE` clauses of `query_items`: each filter is added only when
its argument is truthy. -/
def matchesPrimary (since_iso platform publisher : Option String)
    (p : String × Item) : Bool :=
  (!pyTruthy since_iso || valueGE (getField p.2 FieldName.published_at) (since_iso.getD ""))
  && (!pyTruthy platform || valueEq (getField p.2 FieldName.platform) (platform.getD ""))
  && (!pyTruthy publisher || valueEq (getField p.2 FieldName.publisher_or_author) (publisher.getD ""))

/-- Python truthiness of an optional list (`if topics_any:`). -/
def pyTruthyList : Option (List String) → Bool
  | none => false
  | some l => !l.isEmpty

/-- Model of `Store.query_items` (`store.py`, lines 175–206): filtered
rows are truncated to `limit` first; the `topics_any` intersection test
runs afterwards, in Python, over the already-limited rows. -/
def query_items (st : Store) (since_iso : Option String)
    (topics_any : Option (List String)) (platform publisher : Option String)
    (limit : Nat) : List (String × Item) :=
  let rows := (st.filter (matchesPrimary since_iso platform publisher)).take limit
  if pyTruthyList topics_any then
    rows.filter fun r => (topics_any.getD []).any fun x => (topicsOf r.2).contains x
  else rows

/-! ### `utils.clean_text`

`clean_text` pipes the text through `html.unescape`, a tag-stripping
regex `<[^>]+>`, a URL-stripping regex `https?://\S+` (both replacing
the match with one space), a whitespace-collapsing regex `\s+`, and a
final `strip()`.  The scanners below implement exactly those
replacements; `html.unescape` is modelled on the five basic entities
(the stdlib also decodes the full HTML5 entity table, which no text in
this development uses). -/

/-- ASCII whitespace, Python's `\s` on the texts this development uses. -/
def isSpaceCh (c : Char) : Bool :=
  c = ' ' || c = '\t' || c = '\n' || c = '\r' || c = '\x0b' || c = '\x0c'

/-- Decode `&amp;`, `&lt;`, `&gt;`, `&quot;`, `&#39;`; other text passes
through unchanged (model of `html.unescape` on the basic entities). -/
def unescapeFuel : Nat → List Char → List Char
  | 0, l => l
  | _ + 1, [] => []
  | fuel + 1, '&' :: rest =>
    if ['a', 'm', 'p', ';'].isPrefixOf rest then '&' :: unescapeFuel fuel (rest.drop 4)
    else if ['l', 't', ';'].isPrefixOf rest then '<' :: unescapeFuel fuel (rest.drop 3)
    else if ['g', 't', ';'].isPrefixOf rest then '>' :: unescapeFuel fuel (rest.drop 3)
    else if ['q', 'u', 'o', 't', ';'].isPrefixOf rest then '\x22' :: unescapeFuel fuel (rest.drop 5)
    else if ['#', '3', '9', ';'].isPrefixOf rest then '\x27' :: unescapeFuel fuel (rest.drop 4)
    else '&' :: unescapeFuel fuel rest
  | fuel + 1, c :: rest => c :: unescapeFuel fuel rest

/-- Leftmost split at the first `>`: the characters before it and the
characters after it. -/
def splitAtGt (acc : List Char) : List Char → Option (List Char × List Char)
  | [] => none
  | '>' :: rest => some (acc.reverse, rest)
  | c :: rest => splitAtGt (c :: acc) rest

/-- Replace every match of `<[^>]+>` by one space (`_TAG_RE.sub(" ", t)`). -/
def stripTagsFuel : Nat → List Char → List Char
  | 0, l => l
  | _ + 1, [] => []
  | fuel + 1, '<' :: rest =>
    (match splitAtGt [] rest with
     | some (inner, rest2) =>
       if inner.isEmpty then '<' :: stripTagsFuel fuel rest
       else ' ' :: stripTagsFuel fuel rest2
     | none => '<' :: stripTagsFuel fuel rest)
  | fuel + 1, c :: rest => c :: stripTagsFuel fuel rest

/-- Replace every match of `https?://\S+` by one space
(`_URL_RE.sub(" ", t)`). -/
def stripUrlsFuel : Nat → List Char → List Char
  | 0, l => l
  | _ + 1, [] => []
  | fuel + 1, c :: cs =>
    let l := c :: cs
    let isHttps := ['h', 't', 't', 'p', 's', ':', '/', '/'].isPrefixOf l
    let isHttp := ['h', 't', 't', 'p', ':', '/', '/'].isPrefixOf l
    if isHttps || isHttp then
      let rest := l.drop (if isHttps then 8 else 7)
      let tail := rest.dropWhile fun ch => !isSpaceCh ch
      if rest.length = tail.length then c :: stripUrlsFuel fuel cs
      else ' ' :: stripUrlsFuel fuel tail
    else c :: stripUrlsFuel fuel cs

/-- Merge adjacent whitespace characters (after each one has been
normalised to a plain space this realises `_WS_RE.sub(" ", t)`). -/
def squeezeSpaces : List Char → List Char
  | [] => []
  | [c] => [c]
  | a :: b :: rest =>
    if isSpaceCh a && isSpaceCh b then squeezeSpaces (b :: rest)
    else a :: squeezeSpaces (b :: rest)

/-- Model of `utils.clean_text` on an optional text (`None` and `""` are
returned as `""`). -/
def clean_text (text : Option String) : String :=
  match text with
  | none => ""
  | some s =>
    if s = "" then ""
    else
      let l := unescapeFuel s.data.length s.data
      let l := stripTagsFuel l.length l
      let l := stripUrlsFuel l.length l
      let l := (l.map fun c => if isSpaceCh c then ' ' else c)
      let l := squeezeSpaces l
      let l := (l.dropWhile isSpaceCh).reverse.dropWhile isSpaceCh
      String.mk l.reverse

/-! ### `preprocess/enrich.py`

The taxonomy dict, the pydantic `Enrichment` model, the deterministic
fallback classifier `_fallback_keyword_enrichment`, and the orchestrator
`enrich_pending`.  The collaborators with effects — `fetch_article_text`
(network), `now_iso` (clock) and `GeminiClient.enrich` (network, may
fail differently on each call) — are passed in as an explicit
environment; the classification client is modelled as a function of the
item id and the attempt index, which captures every possible sequence of
failures and successes of the real client (the prompt string it is given
does not constrain that sequence, so `_build_prompt` needs no model). -/

/-- One topic of the taxonomy: its description, indicative keywords and
locations. -/
structure TopicSpec where
  description : String
  keywords : List String
  locations : List String
deriving DecidableEq, Repr

/-- The taxonomy dict: named topic specs plus a seed actor list. -/
structure Taxonomy where
  topics : List (String × TopicSpec)
  actors : List String
deriving DecidableEq, Repr

/-- The pydantic `Enrichment` model of `preprocess/schema.py`. -/
structure Enrichment where
  topics : List String
  actors : List String
  locations : List String
  language : Option String
  is_editorial : Option Bool
  sentiment : Option String
deriving DecidableEq, Repr

/-- Contiguous-occurrence test on character lists. -/
def charsInfix (needle : List Char) : List Char → Bool
  | [] => needle.isEmpty
  | c :: rest => needle.isPrefixOf (c :: rest) || charsInfix needle rest

/-- Python's `x in text` substring test. -/
def pyIn (needle text : String) : Bool :=
  charsInfix needle.data text.data

/-- Python truthiness of a column value (`None` and `""` are falsy). -/
def pyTruthyV : Value → Bool
  | Value.str s => !(s = "")
  | Value.bool b => b
  | Value.null => false

/-- The string content of a column, with `NULL` read as `""` (the effect
of `item.title or ""`). -/
def vStrD : Value → String
  | Value.str s => s
  | _ => ""

/-- JSON rendering of an optional string, as `json_dumps` would emit it. -/
def jsonOptStr : Option String → String
  | none => "null"
  | some s => "\x22" ++ String.mk (s.data.flatMap jsonEscapeChar) ++ "\x22"

/-- JSON rendering of an optional boolean, as `json_dumps` would emit it. -/
def jsonOptBool : Option Bool → String
  | none => "null"
  | some true => "true"
  | some false => "false"

/-- `json_dumps(enr.model_dump())`: the serialised form of an
`Enrichment`, with the fields in pydantic declaration order. -/
def enr_model_dump (e : Enrichment) : String :=
  "\x7b\x22topics\x22:" ++ json_dumps_list e.topics
  ++ ",\x22actors\x22:" ++ json_dumps_list e.actors
  ++ ",\x22locations\x22:" ++ json_dumps_list e.locations
  ++ ",\x22language\x22:" ++ jsonOptStr e.language
  ++ ",\x22is_editorial\x22:" ++ jsonOptBool e.is_editorial
  ++ ",\x22sentiment\x22:" ++ jsonOptStr e.sentiment ++ "\x7d"

/-- ASCII lower-casing via `Char.toLower`, character by character (the
kernel-reducible equivalent of `str.lower()` on the texts this
development uses). -/
def strLower (s : String) : String :=
  String.mk (s.data.map Char.toLower)

/-- The lower-cased text the fallback classifier scans:
`(clean_text(item.title or "") + " " + clean_text(item.summary or "")).lower()`. -/
def fallback_text (it : Item) : String :=
  strLower (clean_text (some (vStrD (getField it FieldName.title))) ++ " "
    ++ clean_text (some (vStrD (getField it FieldName.summary))))

/-- The positive marker phrases of the fallback sentiment rule
(`enrich.py`, line 142). -/
def posMarkers : List String := ["positif", "baik", "bagus", "apresiasi"]

/-- The negative marker phrases of the fallback sentiment rule
(`enrich.py`, line 144). -/
def negMarkers : List String := ["negatif", "buruk", "jelek", "korupsi", "skandal"]

/-- The editorial marker phrases of the fallback rule (`enrich.py`,
line 138). -/
def editorialMarkers : List String := ["opini", "menurut saya", "seharusnya", "kritik"]

/-- The Indonesian stop words of the fallback language rule
(`enrich.py`, line 147). -/
def languageMarkers : List String := ["yang", "dan", "tidak", "dengan"]

/-- The topic loop of the fallback classifier: keep a topic when its
keyword list is empty or hits the text, and its location list is empty
or hits the text. -/
def fallbackTopics (tax : Taxonomy) (text : String) : List String :=
  (tax.topics.filter fun ts =>
    let kws := ts.2.keywords.map strLower
    let locs := ts.2.locations.map strLower
    (kws.isEmpty || kws.any fun k => pyIn k text)
      && (locs.isEmpty || locs.any fun k => pyIn k text)).map Prod.fst

/-- The fallback sentiment rule: `"neutral"` by default, `"positive"`
when a positive marker occurs, `elif` `"negative"` when a negative
marker occurs. -/
def fallbackSentiment (text : String) : String :=
  if posMarkers.any (fun m => pyIn m text) then "positive"
  else if negMarkers.any (fun m => pyIn m text) then "negative"
  else "neutral"

/-- Model of `_fallback_keyword_enrichment` (`enrich.py`,
lines 114–156). -/
def fallback_keyword_enrichment (it : Item) (tax : Taxonomy) : Enrichment :=
  let text := fallback_text it
  { topics := fallbackTopics tax text
    actors := tax.actors.filter fun a => pyIn (strLower a) text
    locations := []
    language := if languageMarkers.any (fun w => pyIn w text) then some "id" else none
    is_editorial := if editorialMarkers.any (fun x => pyIn x text) then some true else none
    sentiment := some (fallbackSentiment text) }

/-- Outcome of one `GeminiClient.enrich` call: a parsed `Enrichment` or
the message of the exception the call raised. -/
inductive EnrichResult
  | ok (e : Enrichment)
  | failed (msg : String)
deriving DecidableEq, Repr

/-- The effectful collaborators of `enrich_pending`: the clock
(`now_iso`), the article fetcher (`fetch_article_text`, `none` for a
fetch that returns nothing), and the classification client's behaviour
per item id and attempt index. -/
structure EnrichEnv where
  now : String
  fetch : String → Option String
  attempt : String → Nat → EnrichResult

/-- The retry loop of `enrich_pending` (`for _ in range(max_retries + 1)`),
started at attempt `start` with `remaining` attempts left and the
last failure message so far: returns the first success, or `none`
together with the final `last_error`. -/
def attemptLoop (f : Nat → EnrichResult) (start remaining : Nat)
    (lastErr : Option String) : Option Enrichment × Option String :=
  match remaining with
  | 0 => (none, lastErr)
  | r + 1 =>
    match f start with
    | .ok e => (some e, none)
    | .failed m => attemptLoop f (start + 1) r (some m)

/-- The content-fetch step at the top of the `enrich_pending` loop body:
when the snapshot row has no content text, fetch the article and, when
the fetch yields a truthy text, persist it with `update_content`.
Returns the new store and the local `content_text` variable. -/
def contentStep (env : EnrichEnv) (st : Store) (p : String × Item) :
    Store × Option String :=
  let snap := getField p.2 FieldName.content_text
  if pyTruthyV snap then (st, some (vStrD snap))
  else
    match env.fetch (vStrD (getField p.2 FieldName.url)) with
    | some content =>
      if content = "" then (st, none)
      else (update_content st p.1 content (some env.now) "ok" none, some content)
    | none => (st, none)

/-- Dispatch on the outcome of the retry loop: a success persists the
parsed enrichment with `status="ok"`; a final failure persists cleared
fields with `status="error"` and the last failure message; the third
case cannot arise for a positive attempt count. -/
def clientResultApply (st1 : Store) (i : String) (gemini_model now : String) :
    Option Enrichment × Option String → Store × Nat × Nat × Nat
  | (some enr, _) =>
    (update_enrichment st1 i enr.topics enr.actors enr.locations
        enr.language enr.is_editorial enr.sentiment (enr_model_dump enr)
        gemini_model "ok" none (some now),
      1, 0, 0)
  | (none, some m) =>
    (update_enrichment st1 i [] [] [] none none none "{}"
        gemini_model "error" (some m) (some now),
      0, 1, 0)
  | (none, none) => (st1, 0, 0, 0)

/-- The body of the `enrich_pending` loop for one pending item: the
content-fetch step, then either the fallback classifier (no client) or
the bounded-retry classification; returns the new store and the
`(ok, error, skipped)` counter increments. -/
def processItem (env : EnrichEnv) (tax : Taxonomy) (hasClient : Bool)
    (gemini_model : String) (max_retries : Nat) (st : Store)
    (p : String × Item) : Store × Nat × Nat × Nat :=
  let st1 := (contentStep env st p).1
  if !hasClient then
    let enr := fallback_keyword_enrichment p.2 tax
    (update_enrichment st1 p.1 enr.topics enr.actors enr.locations
        enr.language enr.is_editorial enr.sentiment (enr_model_dump enr)
        "fallback_keyword" "ok" none (some env.now),
      0, 0, 1)
  else
    clientResultApply st1 p.1 gemini_model env.now
      (attemptLoop (env.attempt p.1) 0 (max_retries + 1) none)

/-- The counter dict `enrich_pending` returns. -/
structure Counts where
  pending : Nat
  enriched_ok : Nat
  enriched_error : Nat
  skipped : Nat
deriving DecidableEq, Repr

/-- Model of `enrich_pending` (`enrich.py`, lines 159–271): take the
pending snapshot, build the client only when the API key is truthy, and
run the loop body over every pending item, threading the store. -/
def enrich_pending (st : Store) (tax : Taxonomy)
    (gemini_api_key : Option String) (gemini_model : String)
    (batch_size max_retries : Nat) (env : EnrichEnv) : Store × Counts :=
  let pending := list_unenriched st batch_size
  if pending.isEmpty then (st, ⟨0, 0, 0, 0⟩)
  else
    let hasClient := pyTruthy gemini_api_key
    let out := pending.foldl
      (fun acc p =>
        let r := processItem env tax hasClient gemini_model max_retries acc.1 p
        (r.1, acc.2.1 + r.2.1, acc.2.2.1 + r.2.2.1, acc.2.2.2 + r.2.2.2))
      (st, 0, 0, 0)
    (out.1, ⟨pending.length, out.2.1, out.2.2.1, out.2.2.2⟩)

/-! ### Observation helpers and concrete fixtures

`storedField` reads one column of one row of a store; `upsertField`
reads it through the `Option` result of `upsert_items`.  The `c…`
definitions are small concrete stores, records and environments used to
instantiate the theorems below on closed inputs. -/

/-- One column of the row `i`, if the row exists. -/
def storedField (st : Store) (i : String) (f : FieldName) : Option Value :=
  (findItem st i).map fun x => getField x f

/-- One column of the row `i` after an `upsert_items` call. -/
def upsertField (res : Option (Store × Nat × Nat)) (i : String) (f : FieldName) : Option Value :=
  res.bind fun x => storedField x.1 i f

/-- A family of pairwise distinct urls: `n` letters `a`. -/
def aUrl (n : Nat) : String :=
  String.mk (List.replicate n 'a')

def c1Item : Item :=
  setAll emptyItem
    [(.id, .str "i1"), (.title, .str "old title"), (.topics, .str "[\x22a\x22]"),
     (.signals_json, .str "old sig"), (.raw_json, .str "old raw"),
     (.enriched_at, .str "t0")]

def c1Store : Store := [("i1", c1Item)]

def c1Record : Rec :=
  [(.id, .str "i1"), (.title, .str "new title"), (.signals_json, .str "new sig"),
   (.topics, .str "[\x22b\x22]")]

def c2Item : Item :=
  setAll emptyItem
    [(.id, .str "p2"), (.title, .str "T2"), (.url, .str "u2"),
     (.content_text, .str "C2"), (.raw_json, .str "{}")]

def c2Store : Store := [("p2", c2Item)]

def c2Enr : Enrichment :=
  ⟨["t"], [], [], some "id", none, some "neutral"⟩

def c2Env : EnrichEnv :=
  ⟨"NOW2", fun _ => none,
   fun _ j => if j = 0 then EnrichResult.failed "boom0" else EnrichResult.ok c2Enr⟩

def c2EnvAllFail : EnrichEnv :=
  ⟨"NOW2", fun _ => none, fun _ j => EnrichResult.failed ("boom" ++ toString j)⟩

def c3ItemA : Item :=
  setAll emptyItem [(.id, .str "a3"), (.title, .str "A3"), (.raw_json, .str "{}")]

def c3ItemB : Item :=
  setAll emptyItem [(.id, .str "b3"), (.title, .str "B3"), (.raw_json, .str "{}")]

def c3Store : Store := [("a3", c3ItemA), ("b3", c3ItemB)]

def c5Item : Item :=
  setAll emptyItem
    [(.id, .str "i5"), (.title, .str "t old"), (.summary, .str "s old"),
     (.published_at, .str "p old"), (.signals_json, .str "old sig"),
     (.raw_json, .str "old raw")]

def c5Store : Store := [("i5", c5Item)]

def c5Record : Rec :=
  [(.id, .str "i5"), (.title, .str "t new"), (.summary, .str "s new"),
   (.published_at, .str "p new"), (.signals_json, .str "new sig"),
   (.raw_json, .str "new raw")]

def c6Item : Item :=
  setAll emptyItem
    [(.id, .str "i6"), (.title, .str "Berita biasa"), (.url, .str "u6"),
     (.content_text, .str "C6"), (.raw_json, .str "{}")]

def c6Store : Store := [("i6", c6Item)]

def c6Env : EnrichEnv :=
  ⟨"NOW6", fun _ => none, fun _ _ => EnrichResult.failed "unused"⟩

def c6OkEnv : EnrichEnv :=
  ⟨"NOW6", fun _ => none,
   fun _ _ => EnrichResult.ok ⟨[], [], [], none, none, some "neutral"⟩⟩

def c7Item : Item :=
  setAll emptyItem [(.id, .str "i7"), (.title, .str "baik korupsi"), (.raw_json, .str "{}")]

def c7ItemNeg : Item :=
  setAll emptyItem [(.id, .str "i7n"), (.title, .str "ada korupsi"), (.raw_json, .str "{}")]

def c7ItemNeutral : Item :=
  setAll emptyItem [(.id, .str "i7u"), (.title, .str "berita harian"), (.raw_json, .str "{}")]

def c8ItemA : Item :=
  setAll emptyItem [(.id, .str "a8"), (.topics, .str "[\x22x\x22]"), (.raw_json, .str "{}")]

def c8ItemB : Item :=
  setAll emptyItem [(.id, .str "b8"), (.topics, .str "[\x22a\x22]"), (.raw_json, .str "{}")]

def c8Store : Store := [("a8", c8ItemA), ("b8", c8ItemB)]

def c9Rec1 : Rec :=
  [(.id, .str "i9"), (.title, .str "first"), (.summary, .str "s1"), (.raw_json, .str "r1")]

def c9Rec2 : Rec :=
  [(.id, .str "i9"), (.title, .str "second"), (.raw_json, .str "r2")]

def c10Item : Item :=
  setAll emptyItem
    [(.id, .str "i10"), (.content_hash, .str "old hash"), (.raw_json, .str "{}")]

def c10Store : Store := [("i10", c10Item)]

/-! ### Helper lemmas about rows, records and the store -/

theorem getField_setField_same (it : Item) (f : FieldName) (v : Value) :
    getField (setField it f v) f = v := by
  cases f <;> rfl

theorem getField_setField_ne (it : Item) (f g : FieldName) (v : Value)
    (h : f ≠ g) : getField (setField it f v) g = getField it g := by
  cases f <;> cases g <;> first | rfl | exact absurd rfl h

theorem setAll_getField (r : Rec) (it : Item) (f : FieldName) :
    getField (setAll it r) f =
      match recGetLast r f with
      | some v => v
      | none => getField it f := by
  induction r generalizing it with
  | nil => rfl
  | cons kv rest ih =>
    obtain ⟨k, v⟩ := kv
    show getField (setAll (setField it k v) rest) f = _
    rw [ih (setField it k v)]
    cases hrest : recGetLast rest f with
    | some w => simp [recGetLast, hrest]
    | none =>
      by_cases hk : k = f
      · simp [recGetLast, hrest, hk, getField_setField_same]
      · simp [recGetLast, hrest, hk, getField_setField_ne it k f v hk]

theorem mergeItem_getField_protected (r : Rec) (it : Item) (f : FieldName)
    (hf : f ∈ protected_fields) : getField (mergeItem it r) f = getField it f := by
  induction r generalizing it with
  | nil => rfl
  | cons kv rest ih =>
    obtain ⟨k, v⟩ := kv
    show getField (mergeItem (if k ∈ protected_fields then it else setField it k v) rest) f = _
    by_cases hk : k ∈ protected_fields
    · rw [if_pos hk]; exact ih it
    · have hne : k ≠ f := fun h => hk (h ▸ hf)
      rw [if_neg hk, ih (setField it k v), getField_setField_ne it k f v hne]

theorem mergeItem_getField_unprotected (r : Rec) (it : Item) (f : FieldName)
    (hf : f ∉ protected_fields) :
    getField (mergeItem it r) f =
      match recGetLast r f with
      | some v => v
      | none => getField it f := by
  induction r generalizing it with
  | nil => rfl
  | cons kv rest ih =>
    obtain ⟨k, v⟩ := kv
    show getField (mergeItem (if k ∈ protected_fields then it else setField it k v) rest) f = _
    by_cases hk : k ∈ protected_fields
    · have hne : k ≠ f := fun h => hf (h ▸ hk)
      rw [if_pos hk, ih it]
      cases hrest : recGetLast rest f with
      | some w => simp [recGetLast, hrest]
      | none => simp [recGetLast, hrest, hne]
    · rw [if_neg hk, ih (setField it k v)]
      cases hrest : recGetLast rest f with
      | some w => simp [recGetLast, hrest]
      | none =>
        by_cases hkf : k = f
        · simp [recGetLast, hrest, hkf, getField_setField_same]
        · simp [recGetLast, hrest, hkf, getField_setField_ne it k f v hkf]

theorem findItem_cons (q : String × Item) (rest : Store) (i : String) :
    findItem (q :: rest) i = if q.1 = i then some q.2 else findItem rest i := by
  rfl

theorem findItem_updateItem_self (st : Store) (i : String) (g : Item → Item) :
    findItem (updateItem st i g) i = (findItem st i).map g := by
  induction st with
  | nil => rfl
  | cons p rest ih =>
    show findItem ((if p.1 = i then (p.1, g p.2) else p) :: updateItem rest i g) i = _
    by_cases h : p.1 = i
    · rw [if_pos h, findItem_cons, findItem_cons, if_pos h, if_pos h]
      rfl
    · rw [if_neg h, findItem_cons, findItem_cons, if_neg h, if_neg h, ih]

theorem findItem_updateItem_ne (st : Store) (i j : String) (g : Item → Item)
    (h : j ≠ i) : findItem (updateItem st i g) j = findItem st j := by
  induction st with
  | nil => rfl
  | cons p rest ih =>
    show findItem ((if p.1 = i then (p.1, g p.2) else p) :: updateItem rest i g) j = _
    by_cases hp : p.1 = i
    · have hpj : ¬ p.1 = j := fun hh => h (hh ▸ hp)
      rw [if_pos hp, findItem_cons, findItem_cons, if_neg (hp ▸ hpj), if_neg hpj, ih]
    · rw [if_neg hp, findItem_cons, findItem_cons, ih]

theorem findItem_append_of_none (st l : Store) (i : String)
    (h : findItem st i = none) : findItem (st ++ l) i = findItem l i := by
  induction st with
  | nil => rfl
  | cons p rest ih =>
    rw [findItem_cons] at h
    by_cases hp : p.1 = i
    · rw [if_pos hp] at h; cases h
    · rw [if_neg hp] at h
      show findItem (p :: (rest ++ l)) i = _
      rw [findItem_cons, if_neg hp]
      exact ih h

theorem findItem_none_not_mem (st : Store) (i : String)
    (h : findItem st i = none) : ∀ p ∈ st, p.1 ≠ i := by
  induction st with
  | nil => intro p hp; cases hp
  | cons q rest ih =>
    rw [findItem_cons] at h
    by_cases hq : q.1 = i
    · rw [if_pos hq] at h; cases h
    · rw [if_neg hq] at h
      intro p hp
      rcases List.mem_cons.mp hp with hp | hp
      · rw [hp]; exact hq
      · exact ih h p hp

theorem mem_updateItem (st : Store) (i : String) (g : Item → Item)
    (p : String × Item) (hp : p ∈ updateItem st i g) :
    ∃ q ∈ st, p = if q.1 = i then (q.1, g q.2) else q := by
  rcases List.mem_map.mp hp with ⟨q, hq, hpq⟩
  exact ⟨q, hq, hpq.symm⟩

theorem update_enrichment_eq (st : Store) (i : String)
    (tp ac lo : List String) (la : Option String) (ie : Option Bool)
    (se : Option String) (tj mo stt : String) (er ea : Option String)
    (it : Item) (hfind : findItem st i = some it) :
    update_enrichment st i tp ac lo la ie se tj mo stt er ea =
      updateItem st i (enrichApply tp ac lo la ie se tj mo stt er ea) := by
  unfold update_enrichment
  rw [hfind]

theorem update_content_eq (st : Store) (i : String) (ct : String)
    (fa : Option String) (stt : String) (ch : Option String)
    (it : Item) (hfind : findItem st i = some it) :
    update_content st i ct fa stt ch =
      updateItem st i (contentApply ct fa stt ch) := by
  unfold update_content
  rw [hfind]

theorem contentStep_find (env : EnrichEnv) (st : Store) (i : String)
    (it it0 : Item) (hfind : findItem st i = some it0) :
    ∃ it₁, findItem (contentStep env st (i, it)).1 i = some it₁ := by
  unfold contentStep
  by_cases h : pyTruthyV (getField it FieldName.content_text)
  · exact ⟨it0, by rw [if_pos h]; exact hfind⟩
  · rw [if_neg h]
    cases hfetch : env.fetch (vStrD (getField it FieldName.url)) with
    | none => exact ⟨it0, hfind⟩
    | some content =>
      show ∃ it₁,
        findItem
          (if content = "" then (st, (none : Option String))
           else (update_content st i content (some env.now) "ok" none, some content)).1
          i = some it₁
      by_cases hc : content = ""
      · rw [if_pos hc]
        exact ⟨it0, hfind⟩
      · rw [if_neg hc]
        refine ⟨contentApply content (some env.now) "ok" none it0, ?_⟩
        show findItem (update_content st i content (some env.now) "ok" none) i = _
        rw [update_content_eq st i content (some env.now) "ok" none it0 hfind,
          findItem_updateItem_self, hfind]
        rfl

theorem attemptLoop_succeeds (f : Nat → EnrichResult) (n : Nat) (e : Enrichment) :
    ∀ (start : Nat) (le : Option String),
      (∀ j, j < n → ∃ m, f (start + j) = EnrichResult.failed m) →
      f (start + n) = EnrichResult.ok e →
      attemptLoop f start (n + 1) le = (some e, none) := by
  induction n with
  | zero =>
    intro start le _ hok
    rw [Nat.add_zero] at hok
    unfold attemptLoop
    rw [hok]
  | succ n ih =>
    intro start le hfail hok
    obtain ⟨m, hm⟩ := hfail 0 (Nat.succ_pos n)
    rw [Nat.add_zero] at hm
    show attemptLoop f start (n + 1 + 1) le = _
    unfold attemptLoop
    rw [hm]
    refine ih (start + 1) (some m) (fun j hj => ?_) ?_
    · obtain ⟨m', hm'⟩ := hfail (j + 1) (Nat.succ_lt_succ hj)
      refine ⟨m', ?_⟩
      have harith : start + 1 + j = start + (j + 1) := by omega
      rw [harith]
      exact hm'
    · have harith : start + 1 + n = start + (n + 1) := by omega
      rw [harith]
      exact hok

theorem attemptLoop_all_fail (f : Nat → EnrichResult) (n : Nat) (m : String) :
    ∀ (start : Nat) (le : Option String),
      (∀ j, j < n → ∃ m', f (start + j) = EnrichResult.failed m') →
      f (start + n) = EnrichResult.failed m →
      attemptLoop f start (n + 1) le = (none, some m) := by
  induction n with
  | zero =>
    intro start le _ hlast
    rw [Nat.add_zero] at hlast
    unfold attemptLoop
    rw [hlast]
    rfl
  | succ n ih =>
    intro start le hfail hlast
    obtain ⟨m', hm'⟩ := hfail 0 (Nat.succ_pos n)
    rw [Nat.add_zero] at hm'
    show attemptLoop f start (n + 1 + 1) le = _
    unfold attemptLoop
    rw [hm']
    refine ih (start + 1) (some m') (fun j hj => ?_) ?_
    · obtain ⟨m'', hm''⟩ := hfail (j + 1) (Nat.succ_lt_succ hj)
      refine ⟨m'', ?_⟩
      have harith : start + 1 + j = start + (j + 1) := by omega
      rw [harith]
      exact hm''
    · have harith : start + 1 + n = start + (n + 1) := by omega
      rw [harith]
      exact hlast

theorem enrich_pending_single_store (st : Store) (tax : Taxonomy)
    (key : Option String) (gm : String) (batch mr : Nat) (env : EnrichEnv)
    (i : String) (it : Item)
    (hpend : list_unenriched st batch = [(i, it)]) :
    (enrich_pending st tax key gm batch mr env).1 =
      (processItem env tax (pyTruthy key) gm mr st (i, it)).1 := by
  unfold enrich_pending
  rw [hpend]
  rfl

theorem upsertOne_merge (st : Store) (i : String) (it : Item) (r : Rec)
    (hid : recId r = some i) (hfind : findItem st i = some it) :
    upsertOne st r = some (updateItem st i (fun _ => mergeItem it r), false) := by
  unfold upsertOne
  rw [hid]
  show (match findItem st i with
        | none => some (st ++ [(i, setAll emptyItem r)], true)
        | some it => some (updateItem st i fun _ => mergeItem it r, false)) = _
  rw [hfind]

theorem upsertOne_insert (st : Store) (i : String) (r : Rec)
    (hid : recId r = some i) (hnone : findItem st i = none) :
    upsertOne st r = some (st ++ [(i, setAll emptyItem r)], true) := by
  unfold upsertOne
  rw [hid]
  show (match findItem st i with
        | none => some (st ++ [(i, setAll emptyItem r)], true)
        | some it => some (updateItem st i fun _ => mergeItem it r, false)) = _
  rw [hnone]

theorem upsert_items_singleton (st : Store) (r : Rec) :
    upsert_items st [r] =
      match upsertOne st r with
      | none => none
      | some (s', true) => some (s', 1, 0)
      | some (s', false) => some (s', 0, 1) := by
  cases h : upsertOne st r with
  | none => simp [upsert_items, h]
  | some x =>
    obtain ⟨s', b⟩ := x
    cases b <;> simp [upsert_items, h]

theorem upsert_items_pair (st : Store) (r1 r2 : Rec) :
    upsert_items st [r1, r2] =
      (upsert_items st [r1]).bind fun x =>
        (upsert_items x.1 [r2]).map fun y => (y.1, x.2.1 + y.2.1, x.2.2 + y.2.2) := by
  cases h1 : upsertOne st r1 with
  | none => simp [upsert_items, h1]
  | some x1 =>
    obtain ⟨s1, b1⟩ := x1
    cases h2 : upsertOne s1 r2 with
    | none => cases b1 <;> simp [upsert_items, h1, h2]
    | some x2 =>
      obtain ⟨s2, b2⟩ := x2
      cases b1 <;> cases b2 <;> simp [upsert_items, h1, h2]

theorem upsertField_merge (st : Store) (i : String) (it : Item) (r : Rec)
    (hfind : findItem st i = some it) (hid : recId r = some i) (g : FieldName) :
    upsertField (upsert_items st [r]) i g = some (getField (mergeItem it r) g) := by
  rw [upsert_items_singleton, upsertOne_merge st i it r hid hfind]
  show storedField (updateItem st i fun _ => mergeItem it r) i g = _
  unfold storedField
  rw [findItem_updateItem_self, hfind]
  rfl

theorem storedField_update_enrichment (st : Store) (i : String)
    (tp ac lo : List String) (la : Option String) (ie : Option Bool)
    (se : Option String) (tj mo stt : String) (er ea : Option String)
    (it₁ : Item) (h : findItem st i = some it₁) (f : FieldName) :
    storedField (update_enrichment st i tp ac lo la ie se tj mo stt er ea) i f =
      some (getField (enrichApply tp ac lo la ie se tj mo stt er ea it₁) f) := by
  unfold storedField
  rw [update_enrichment_eq st i tp ac lo la ie se tj mo stt er ea it₁ h,
    findItem_updateItem_self, h]
  rfl

theorem update_enrichment_not_pending (st : Store) (i : String)
    (tp ac lo : List String) (la : Option String) (ie : Option Bool)
    (se : Option String) (tj mo stt : String) (er : Option String)
    (t : String) (lim : Nat) (p : String × Item)
    (hp : p ∈ list_unenriched (update_enrichment st i tp ac lo la ie se tj mo stt er (some t)) lim) :
    p.1 ≠ i := by
  intro hpi
  unfold list_unenriched at hp
  have h1 := List.mem_of_mem_take hp
  have hnull := List.of_mem_filter h1
  have hmem := List.mem_of_mem_filter h1
  unfold update_enrichment at hmem
  cases hfind : findItem st i with
  | none =>
    rw [hfind] at hmem
    exact findItem_none_not_mem st i hfind p hmem hpi
  | some it0 =>
    rw [hfind] at hmem
    obtain ⟨q, _, hpq⟩ := mem_updateItem st i _ p hmem
    by_cases hqi : q.1 = i
    · rw [if_pos hqi] at hpq
      have hstr : getField p.2 FieldName.enriched_at = Value.str t := by
        rw [hpq]
        rfl
      simp [hstr] at hnull
    · rw [if_neg hqi] at hpq
      rw [hpq] at hpi
      exact hqi hpi

/-! ### Helper lemmas for the SHA-256 digest bound -/

theorem combine_aux_lt (ws : List Nat) :
    ∀ acc : Nat,
      ws.foldl (fun acc w => acc * w32 + w % w32) acc < (acc + 1) * w32 ^ ws.length := by
  induction ws with
  | nil => intro acc; simp only [List.foldl_nil, List.length_nil, pow_zero, mul_one]; exact Nat.lt_succ_self acc
  | cons w t ih =>
    intro acc
    have h1 := ih (acc * w32 + w % w32)
    have h2 : w % w32 < w32 := Nat.mod_lt _ (by norm_num [w32])
    have h3 : acc * w32 + w % w32 + 1 ≤ (acc + 1) * w32 := by
      have : w % w32 + 1 ≤ w32 := h2
      calc acc * w32 + w % w32 + 1 = acc * w32 + (w % w32 + 1) := by ring
        _ ≤ acc * w32 + w32 := by omega
        _ = (acc + 1) * w32 := by ring
    calc (w :: t).foldl (fun acc w => acc * w32 + w % w32) acc
        = t.foldl (fun acc w => acc * w32 + w % w32) (acc * w32 + w % w32) := rfl
      _ < (acc * w32 + w % w32 + 1) * w32 ^ t.length := h1
      _ ≤ ((acc + 1) * w32) * w32 ^ t.length := Nat.mul_le_mul_right _ h3
      _ = (acc + 1) * w32 ^ (w :: t).length := by
          rw [List.length_cons, pow_succ]
          ring

theorem compress_length (hs block : List Nat) (h : hs.length = 8) :
    (compress hs block).length = 8 := by
  unfold compress
  rw [List.length_zipWith, h]
  rfl

theorem foldl_compress_length (bs : List (List Nat)) :
    ∀ hs : List Nat, hs.length = 8 → (bs.foldl compress hs).length = 8 := by
  induction bs with
  | nil => intro hs h; exact h
  | cons b rest ih => intro hs h; exact ih (compress hs b) (compress_length hs b h)

theorem sha256Words_length (msg : List Nat) : (sha256Words msg).length = 8 :=
  foldl_compress_length (toBlocks (padMsg msg)) hInit rfl

theorem sha256Nat_lt (msg : List Nat) : sha256Nat msg < 2 ^ 256 := by
  have h := combine_aux_lt (sha256Words msg) 0
  rw [sha256Words_length msg] at h
  have hw : (0 + 1) * w32 ^ 8 = 2 ^ 256 := by norm_num [w32]
  rw [hw] at h
  exact h

theorem aUrl_injective : Function.Injective aUrl := by
  intro m n h
  have hdata : List.replicate m 'a' = List.replicate n 'a' := congrArg String.data h
  have hlen := congrArg List.length hdata
  rwa [List.length_replicate, List.length_replicate] at hlen

theorem natToHex_length (k : Nat) : ∀ x : Nat, (natToHex k x).length = k := by
  induction k with
  | zero => intro x; rfl
  | succ k ih =>
    intro x
    show (natToHex k (x / 16) ++ [hexDigitChar (x % 16)]).length = k + 1
    rw [List.length_append, ih]
    rfl

/-! ### Claim theorems -/

/-- C1 (amended): merging a record for an existing row leaves every
field of the code's protected set — which, beyond the fields the claim
lists, also contains `signals_json` — unchanged, and overwrites every
field outside that set with the record's (last) value for it. -/
theorem upsert_merge_protected_and_overwrite (st : Store) (i : String)
    (it : Item) (r : Rec) (f : FieldName)
    (hfind : findItem st i = some it) (hid : recId r = some i) :
    (f ∈ protected_fields →
      upsertField (upsert_items st [r]) i f = some (getField it f))
    ∧ (f ∉ protected_fields →
      upsertField (upsert_items st [r]) i f =
        some (match recGetLast r f with
              | some v => v
              | none => getField it f)) := by
  constructor
  · intro hf
    rw [upsertField_merge st i it r hfind hid f,
      mergeItem_getField_protected r it f hf]
  · intro hf
    rw [upsertField_merge st i it r hfind hid f,
      mergeItem_getField_unprotected r it f hf]

/-- C1 witness: on the concrete store, the protected `topics` column
keeps its stored value while the non-protected `title` column takes the
incoming one. -/
theorem upsert_merge_protected_and_overwrite_witness :
    upsertField (upsert_items c1Store [c1Record]) "i1" FieldName.topics
      = some (Value.str "[\x22a\x22]")
    ∧ upsertField (upsert_items c1Store [c1Record]) "i1" FieldName.title
      = some (Value.str "new title") :=
  ⟨(upsert_merge_protected_and_overwrite c1Store "i1" c1Item c1Record
      FieldName.topics (by decide) (by decide)).1 (by decide),
   (upsert_merge_protected_and_overwrite c1Store "i1" c1Item c1Record
      FieldName.title (by decide) (by decide)).2 (by decide)⟩

/-- C1 counterexample: `signals_json` is not in the claim's protected
list, yet an incoming `signals_json` value does not overwrite the
stored one — the code's protected set also contains `signals_json`. -/
theorem upsert_signals_json_kept_cex :
    upsertField (upsert_items c1Store [c1Record]) "i1" FieldName.signals_json
      = some (Value.str "old sig")
    ∧ ¬ (upsertField (upsert_items c1Store [c1Record]) "i1" FieldName.signals_json
      = some (Value.str "new sig")) := by
  decide

/-- C5 (amended): on a merge, `title`, `summary` and `published_at` are
refreshed from the record; `signals_json` is in the protected set and
left unchanged; `raw_json` is not protected, so a record that carries
`raw_json` overwrites the stored value — it is not write-once. -/
theorem upsert_merge_volatile_fields (st : Store) (i : String)
    (it : Item) (r : Rec)
    (hfind : findItem st i = some it) (hid : recId r = some i) :
    (∀ v, recGetLast r FieldName.title = some v →
      upsertField (upsert_items st [r]) i FieldName.title = some v)
    ∧ (∀ v, recGetLast r FieldName.summary = some v →
      upsertField (upsert_items st [r]) i FieldName.summary = some v)
    ∧ (∀ v, recGetLast r FieldName.published_at = some v →
      upsertField (upsert_items st [r]) i FieldName.published_at = some v)
    ∧ (∀ v, recGetLast r FieldName.raw_json = some v →
      upsertField (upsert_items st [r]) i FieldName.raw_json = some v)
    ∧ upsertField (upsert_items st [r]) i FieldName.signals_json
      = some (getField it FieldName.signals_json) := by
  refine ⟨fun v hv => ?_, fun v hv => ?_, fun v hv => ?_, fun v hv => ?_, ?_⟩
  · rw [upsertField_merge st i it r hfind hid,
      mergeItem_getField_unprotected r it FieldName.title (by decide), hv]
  · rw [upsertField_merge st i it r hfind hid,
      mergeItem_getField_unprotected r it FieldName.summary (by decide), hv]
  · rw [upsertField_merge st i it r hfind hid,
      mergeItem_getField_unprotected r it FieldName.published_at (by decide), hv]
  · rw [upsertField_merge st i it r hfind hid,
      mergeItem_getField_unprotected r it FieldName.raw_json (by decide), hv]
  · rw [upsertField_merge st i it r hfind hid,
      mergeItem_getField_protected r it FieldName.signals_json (by decide)]

/-- C5 witness: on the concrete store, `title` is refreshed and
`signals_json` keeps its stored value. -/
theorem upsert_merge_volatile_fields_witness :
    upsertField (upsert_items c5Store [c5Record]) "i5" FieldName.title
      = some (Value.str "t new")
    ∧ upsertField (upsert_items c5Store [c5Record]) "i5" FieldName.signals_json
      = some (Value.str "old sig") :=
  ⟨(upsert_merge_volatile_fields c5Store "i5" c5Item c5Record
      (by decide) (by decide)).1 (Value.str "t new") (by decide),
   (upsert_merge_volatile_fields c5Store "i5" c5Item c5Record
      (by decide) (by decide)).2.2.2.2⟩

/-- C5 counterexample: a merge with an incoming `raw_json` replaces the
stored `raw_json` (so it is not write-once), and the incoming
`signals_json` is ignored (so it is not refreshed). -/
theorem upsert_raw_json_mutated_cex :
    upsertField (upsert_items c5Store [c5Record]) "i5" FieldName.raw_json
      = some (Value.str "new raw")
    ∧ ¬ (upsertField (upsert_items c5Store [c5Record]) "i5" FieldName.raw_json
      = some (Value.str "old raw"))
    ∧ upsertField (upsert_items c5Store [c5Record]) "i5" FieldName.signals_json
      = some (Value.str "old sig")
    ∧ ¬ (upsertField (upsert_items c5Store [c5Record]) "i5" FieldName.signals_json
      = some (Value.str "new sig")) := by
  decide

/-- C9: two records with the same fresh id in one batch are applied in
order — the call equals the sequential composition of two single-record
calls, and every non-protected field carried by the second record ends
up with the second record's value. -/
theorem upsert_batch_order (st : Store) (i : String) (r1 r2 : Rec)
    (hid1 : recId r1 = some i) (hid2 : recId r2 = some i)
    (hnone : findItem st i = none) :
    upsert_items st [r1, r2] =
      ((upsert_items st [r1]).bind fun x =>
        (upsert_items x.1 [r2]).map fun y => (y.1, x.2.1 + y.2.1, x.2.2 + y.2.2))
    ∧ (∀ f v, f ∉ protected_fields → recGetLast r2 f = some v →
        upsertField (upsert_items st [r1, r2]) i f = some v) := by
  have h1 := upsertOne_insert st i r1 hid1 hnone
  have hfind1 : findItem (st ++ [(i, setAll emptyItem r1)]) i
      = some (setAll emptyItem r1) := by
    rw [findItem_append_of_none st _ i hnone]
    show (if i = i then some (setAll emptyItem r1) else none) = _
    rw [if_pos rfl]
  have h2 := upsertOne_merge (st ++ [(i, setAll emptyItem r1)]) i
    (setAll emptyItem r1) r2 hid2 hfind1
  refine ⟨upsert_items_pair st r1 r2, fun f v hf hv => ?_⟩
  have hpair : upsert_items st [r1, r2] =
      some (updateItem (st ++ [(i, setAll emptyItem r1)]) i
        (fun _ => mergeItem (setAll emptyItem r1) r2), 1, 1) := by
    rw [upsert_items_pair st r1 r2, upsert_items_singleton, h1]
    show (upsert_items (st ++ [(i, setAll emptyItem r1)]) [r2]).map
        (fun y => (y.1, 1 + y.2.1, 0 + y.2.2)) = _
    rw [upsert_items_singleton, h2]
    rfl
  rw [hpair]
  show storedField (updateItem (st ++ [(i, setAll emptyItem r1)]) i
      (fun _ => mergeItem (setAll emptyItem r1) r2)) i f = some v
  unfold storedField
  rw [findItem_updateItem_self, hfind1]
  show some (getField (mergeItem (setAll emptyItem r1) r2) f) = some v
  rw [mergeItem_getField_unprotected r2 _ f hf, hv]

/-- C9 witness: inserting two records with the same fresh id in one
batch leaves the second record's `title`. -/
theorem upsert_batch_order_witness :
    upsertField (upsert_items [] [c9Rec1, c9Rec2]) "i9" FieldName.title
      = some (Value.str "second") :=
  (upsert_batch_order [] "i9" c9Rec1 c9Rec2 (by decide) (by decide)
    (by decide)).2 FieldName.title (Value.str "second") (by decide) (by decide)

/-- C10: `update_content` always writes `content_text`,
`content_fetched_at` and `content_status`; the stored `content_hash`
survives a `None` or `""` argument and is overwritten only by a
non-empty one. -/
theorem update_content_hash_guard (st : Store) (i : String) (ct : String)
    (fa : Option String) (stt : String) (ch : Option String) (it : Item)
    (hfind : findItem st i = some it) :
    storedField (update_content st i ct fa stt ch) i FieldName.content_text
      = some (Value.str ct)
    ∧ storedField (update_content st i ct fa stt ch) i FieldName.content_fetched_at
      = some (optStr fa)
    ∧ storedField (update_content st i ct fa stt ch) i FieldName.content_status
      = some (Value.str stt)
    ∧ (ch = none ∨ ch = some "" →
      storedField (update_content st i ct fa stt ch) i FieldName.content_hash
        = some (getField it FieldName.content_hash))
    ∧ (∀ h, ch = some h → ¬ h = "" →
      storedField (update_content st i ct fa stt ch) i FieldName.content_hash
        = some (Value.str h)) := by
  have hbase : ∀ g, storedField (update_content st i ct fa stt ch) i g
      = some (getField (contentApply ct fa stt ch it) g) := by
    intro g
    unfold storedField
    rw [update_content_eq st i ct fa stt ch it hfind, findItem_updateItem_self, hfind]
    rfl
  refine ⟨?_, ?_, ?_, ?_, ?_⟩
  · rw [hbase]
    unfold contentApply
    by_cases h : pyTruthy ch = true
    · rw [if_pos h]; rfl
    · rw [if_neg h]; rfl
  · rw [hbase]
    unfold contentApply
    by_cases h : pyTruthy ch = true
    · rw [if_pos h]; rfl
    · rw [if_neg h]; rfl
  · rw [hbase]
    unfold contentApply
    by_cases h : pyTruthy ch = true
    · rw [if_pos h]; rfl
    · rw [if_neg h]; rfl
  · intro hch
    rw [hbase]
    rcases hch with h | h <;> rw [h] <;> rfl
  · intro h hcheq hne
    rw [hbase, hcheq]
    have hpt : pyTruthy (some h) = true := by simp [pyTruthy, hne]
    unfold contentApply
    rw [if_pos hpt]
    rfl

/-- C10 witness: on the concrete store, a `""` hash argument keeps the
stored hash, a non-empty one replaces it, and `content_text` is
written. -/
theorem update_content_hash_guard_witness :
    storedField (update_content c10Store "i10" "CT" (some "F") "ok" (some ""))
        "i10" FieldName.content_hash = some (Value.str "old hash")
    ∧ storedField (update_content c10Store "i10" "CT" (some "F") "ok" (some "H"))
        "i10" FieldName.content_hash = some (Value.str "H")
    ∧ storedField (update_content c10Store "i10" "CT" (some "F") "ok" none)
        "i10" FieldName.content_text = some (Value.str "CT") :=
  ⟨(update_content_hash_guard c10Store "i10" "CT" (some "F") "ok" (some "")
      c10Item (by decide)).2.2.2.1 (Or.inr rfl),
   (update_content_hash_guard c10Store "i10" "CT" (some "F") "ok" (some "H")
      c10Item (by decide)).2.2.2.2 "H" rfl (by decide),
   (update_content_hash_guard c10Store "i10" "CT" (some "F") "ok" none
      c10Item (by decide)).1⟩

/-- C3: a row appears in `list_unenriched` only if its `enriched_at` is
`NULL`; every `NULL`-`enriched_at` row appears when the limit covers the
table; and after `update_enrichment` writes a non-`NULL` `enriched_at`
(whatever status it records), the row is excluded from every later
`list_unenriched` call. -/
theorem pending_set_iff_enriched_null (st : Store) (lim : Nat)
    (p : String × Item) (i : String) (tp ac lo : List String)
    (la : Option String) (ie : Option Bool) (se : Option String)
    (tj mo stt : String) (er : Option String) (t : String) :
    (p ∈ list_unenriched st lim →
      getField p.2 FieldName.enriched_at = Value.null ∧ p ∈ st)
    ∧ (st.length ≤ lim → p ∈ st →
      getField p.2 FieldName.enriched_at = Value.null →
      p ∈ list_unenriched st lim)
    ∧ (p ∈ list_unenriched
        (update_enrichment st i tp ac lo la ie se tj mo stt er (some t)) lim →
      p.1 ≠ i) := by
  refine ⟨?_, ?_, ?_⟩
  · intro hp
    unfold list_unenriched at hp
    have h1 := List.mem_of_mem_take hp
    refine ⟨?_, List.mem_of_mem_filter h1⟩
    have h2 := List.of_mem_filter h1
    simpa using h2
  · intro hlim hmem hnull
    unfold list_unenriched
    have hfl : p ∈ st.filter
        (fun q => getField q.2 FieldName.enriched_at = Value.null) :=
      List.mem_filter.mpr ⟨hmem, by simpa using hnull⟩
    have hlen : (st.filter
        (fun q => getField q.2 FieldName.enriched_at = Value.null)).length ≤ lim :=
      le_trans (List.length_filter_le _ _) hlim
    rw [List.take_of_length_le hlen]
    exact hfl
  · exact update_enrichment_not_pending st i tp ac lo la ie se tj mo stt er t lim p

/-- C3 witness: on the concrete store, a listed row has `NULL`
`enriched_at`, and after enriching row `a3` the still-listed row is not
`a3`. -/
theorem pending_set_iff_enriched_null_witness :
    (getField c3ItemA FieldName.enriched_at = Value.null ∧ ("a3", c3ItemA) ∈ c3Store)
    ∧ ("b3", c3ItemB).1 ≠ "a3" :=
  ⟨(pending_set_iff_enriched_null c3Store 5 ("a3", c3ItemA) "a3" [] [] []
      none none none "{}" "m" "ok" none "T").1 (by decide),
   (pending_set_iff_enriched_null c3Store 5 ("b3", c3ItemB) "a3" [] [] []
      none none none "{}" "m" "ok" none "T").2.2 (by decide)⟩

/-- C2: with a configured classification credential and one pending
item, a collaborator that fails `max_retries` times and succeeds on the
final attempt leaves the item with `enrich_status = "ok"`; one that
fails all `max_retries + 1` attempts leaves `enrich_status = "error"`,
`enrich_error` the last failure message, empty serialised
topics/actors/locations, and a non-`NULL` `enriched_at`. -/
theorem enrich_retry_bounded (st : Store) (tax : Taxonomy) (key : String)
    (gm : String) (batch mr : Nat) (env : EnrichEnv) (i : String) (it : Item)
    (hkey : ¬ key = "")
    (hpend : list_unenriched st batch = [(i, it)])
    (hfind : findItem st i = some it) :
    (∀ enr : Enrichment,
      (∀ j, j < mr → ∃ m, env.attempt i j = EnrichResult.failed m) →
      env.attempt i mr = EnrichResult.ok enr →
      storedField (enrich_pending st tax (some key) gm batch mr env).1 i
        FieldName.enrich_status = some (Value.str "ok"))
    ∧ (∀ m : String,
      (∀ j, j < mr → ∃ m', env.attempt i j = EnrichResult.failed m') →
      env.attempt i mr = EnrichResult.failed m →
      storedField (enrich_pending st tax (some key) gm batch mr env).1 i
        FieldName.enrich_status = some (Value.str "error")
      ∧ storedField (enrich_pending st tax (some key) gm batch mr env).1 i
        FieldName.enrich_error = some (Value.str m)
      ∧ storedField (enrich_pending st tax (some key) gm batch mr env).1 i
        FieldName.topics = some (Value.str "[]")
      ∧ storedField (enrich_pending st tax (some key) gm batch mr env).1 i
        FieldName.actors = some (Value.str "[]")
      ∧ storedField (enrich_pending st tax (some key) gm batch mr env).1 i
        FieldName.locations = some (Value.str "[]")
      ∧ storedField (enrich_pending st tax (some key) gm batch mr env).1 i
        FieldName.enriched_at = some (Value.str env.now)
      ∧ (∀ (lim : Nat) (p : String × Item),
          p ∈ list_unenriched (enrich_pending st tax (some key) gm batch mr env).1 lim →
          p.1 ≠ i)) := by
  have hkey' : pyTruthy (some key) = true := by simp [pyTruthy, hkey]
  have hstore := enrich_pending_single_store st tax (some key) gm batch mr env i it hpend
  rw [hkey'] at hstore
  obtain ⟨it₁, hit₁⟩ := contentStep_find env st i it it hfind
  constructor
  · intro enr hfail hok
    have hloop := attemptLoop_succeeds (env.attempt i) mr enr 0 none
      (fun j hj => by rw [Nat.zero_add]; exact hfail j hj)
      (by rw [Nat.zero_add]; exact hok)
    have hpi : (processItem env tax true gm mr st (i, it)).1 =
        update_enrichment (contentStep env st (i, it)).1 i enr.topics enr.actors
          enr.locations enr.language enr.is_editorial enr.sentiment
          (enr_model_dump enr) gm "ok" none (some env.now) := by
      show (clientResultApply (contentStep env st (i, it)).1 i gm env.now
        (attemptLoop (env.attempt i) 0 (mr + 1) none)).1 = _
      rw [hloop]
      rfl
    rw [hstore, hpi,
      storedField_update_enrichment _ _ _ _ _ _ _ _ _ _ _ _ _ it₁ hit₁]
    rfl
  · intro m hfail hlast
    have hloop := attemptLoop_all_fail (env.attempt i) mr m 0 none
      (fun j hj => by rw [Nat.zero_add]; exact hfail j hj)
      (by rw [Nat.zero_add]; exact hlast)
    have hpi : (processItem env tax true gm mr st (i, it)).1 =
        update_enrichment (contentStep env st (i, it)).1 i [] [] []
          none none none "{}" gm "error" (some m) (some env.now) := by
      show (clientResultApply (contentStep env st (i, it)).1 i gm env.now
        (attemptLoop (env.attempt i) 0 (mr + 1) none)).1 = _
      rw [hloop]
      rfl
    refine ⟨?e1, ?e2, ?e3, ?e4, ?e5, ?e6, ?e7⟩
    case e7 =>
      intro lim p hp
      rw [hstore, hpi] at hp
      exact update_enrichment_not_pending _ i [] [] [] none none none "{}" gm
        "error" (some m) env.now lim p hp
    all_goals
      (rw [hstore, hpi,
        storedField_update_enrichment _ _ _ _ _ _ _ _ _ _ _ _ _ it₁ hit₁]; rfl)

/-- C2 witness: on the concrete one-item store, a collaborator failing
once then succeeding at `max_retries = 1` persists `status "ok"`, and
one failing both attempts persists `status "error"` with the last
message. -/
theorem enrich_retry_bounded_witness :
    storedField (enrich_pending c2Store ⟨[], []⟩ (some "k") "gm" 20 1 c2Env).1
      "p2" FieldName.enrich_status = some (Value.str "ok")
    ∧ storedField (enrich_pending c2Store ⟨[], []⟩ (some "k") "gm" 20 1 c2EnvAllFail).1
      "p2" FieldName.enrich_error = some (Value.str "boom1") :=
  ⟨(enrich_retry_bounded c2Store ⟨[], []⟩ "k" "gm" 20 1 c2Env "p2" c2Item
      (by decide) (by decide) (by decide)).1 c2Enr
      (fun j hj => ⟨"boom0", by
        have hj0 : j = 0 := by omega
        rw [hj0]; rfl⟩)
      (by rfl),
   ((enrich_retry_bounded c2Store ⟨[], []⟩ "k" "gm" 20 1 c2EnvAllFail "p2" c2Item
      (by decide) (by decide) (by decide)).2 "boom1"
      (fun j hj => ⟨"boom0", by
        have hj0 : j = 0 := by omega
        rw [hj0]; rfl⟩)
      (by rfl)).2.1⟩

/-- C6 (amended): with no classification credential, a pending item is
persisted with `enrich_model = "fallback_keyword"` and
`enrich_status = "ok"` — the same status value as the real-model
success path, so the fallback run is distinguished only by the model
column. -/
theorem fallback_model_and_status (st : Store) (tax : Taxonomy) (gm : String)
    (batch mr : Nat) (env : EnrichEnv) (i : String) (it : Item)
    (hpend : list_unenriched st batch = [(i, it)])
    (hfind : findItem st i = some it) :
    storedField (enrich_pending st tax none gm batch mr env).1 i
      FieldName.enrich_model = some (Value.str "fallback_keyword")
    ∧ storedField (enrich_pending st tax none gm batch mr env).1 i
      FieldName.enrich_status = some (Value.str "ok") := by
  have hstore := enrich_pending_single_store st tax none gm batch mr env i it hpend
  obtain ⟨it₁, hit₁⟩ := contentStep_find env st i it it hfind
  have hpi : (processItem env tax (pyTruthy none) gm mr st (i, it)).1 =
      update_enrichment (contentStep env st (i, it)).1 i
        (fallback_keyword_enrichment it tax).topics
        (fallback_keyword_enrichment it tax).actors
        (fallback_keyword_enrichment it tax).locations
        (fallback_keyword_enrichment it tax).language
        (fallback_keyword_enrichment it tax).is_editorial
        (fallback_keyword_enrichment it tax).sentiment
        (enr_model_dump (fallback_keyword_enrichment it tax))
        "fallback_keyword" "ok" none (some env.now) := rfl
  constructor <;>
    rw [hstore, hpi,
      storedField_update_enrichment _ _ _ _ _ _ _ _ _ _ _ _ _ it₁ hit₁] <;>
    rfl

/-- C6 witness: the fallback run on the concrete store persists
`model "fallback_keyword"` with `status "ok"`. -/
theorem fallback_model_and_status_witness :
    storedField (enrich_pending c6Store ⟨[], []⟩ none "gm" 20 2 c6Env).1
      "i6" FieldName.enrich_model = some (Value.str "fallback_keyword") :=
  (fallback_model_and_status c6Store ⟨[], []⟩ "gm" 20 2 c6Env "i6" c6Item
    (by decide) (by decide)).1

/-- C6 counterexample: the fallback path persists exactly the status
`"ok"` that the real-model success path persists — the two statuses are
not distinct. -/
theorem fallback_status_equals_ok_cex :
    storedField (enrich_pending c6Store ⟨[], []⟩ none "gm" 20 2 c6Env).1
      "i6" FieldName.enrich_status = some (Value.str "ok")
    ∧ storedField (enrich_pending c6Store ⟨[], []⟩ (some "k") "gm" 20 2 c6OkEnv).1
      "i6" FieldName.enrich_status = some (Value.str "ok") := by
  decide

/-- C7 (amended): the fallback sentiment is `"neutral"` with no marker,
`"negative"` with a negative and no positive marker, and `"positive"`
whenever a positive marker occurs — the positive check runs first and
its `elif` keeps a simultaneous negative marker from overriding it. -/
theorem fallback_sentiment_rules (it : Item) (tax : Taxonomy) :
    (posMarkers.any (fun m => pyIn m (fallback_text it)) = false →
      negMarkers.any (fun m => pyIn m (fallback_text it)) = false →
      (fallback_keyword_enrichment it tax).sentiment = some "neutral")
    ∧ (posMarkers.any (fun m => pyIn m (fallback_text it)) = false →
      negMarkers.any (fun m => pyIn m (fallback_text it)) = true →
      (fallback_keyword_enrichment it tax).sentiment = some "negative")
    ∧ (posMarkers.any (fun m => pyIn m (fallback_text it)) = true →
      (fallback_keyword_enrichment it tax).sentiment = some "positive") := by
  have hs : (fallback_keyword_enrichment it tax).sentiment
      = some (fallbackSentiment (fallback_text it)) := rfl
  refine ⟨fun h1 h2 => ?_, fun h1 h2 => ?_, fun h1 => ?_⟩
  · rw [hs]
    unfold fallbackSentiment
    rw [h1, h2]
    rfl
  · rw [hs]
    unfold fallbackSentiment
    rw [h1, h2]
    rfl
  · rw [hs]
    unfold fallbackSentiment
    rw [h1]
    rfl

/-- C7 witness: a text with only the negative marker `korupsi` is
classified `"negative"`, and a marker-free text `"neutral"`. -/
theorem fallback_sentiment_rules_witness :
    (fallback_keyword_enrichment c7ItemNeg ⟨[], []⟩).sentiment = some "negative"
    ∧ (fallback_keyword_enrichment c7ItemNeutral ⟨[], []⟩).sentiment = some "neutral" :=
  ⟨(fallback_sentiment_rules c7ItemNeg ⟨[], []⟩).2.1 (by decide) (by decide),
   (fallback_sentiment_rules c7ItemNeutral ⟨[], []⟩).1 (by decide) (by decide)⟩

/-- C7 counterexample: a text containing both the positive marker
`baik` and the negative marker `korupsi` is classified `"positive"`,
not `"negative"` — the `elif` makes the positive check win. -/
theorem fallback_sentiment_both_markers_cex :
    pyIn "baik" (fallback_text c7Item) = true
    ∧ pyIn "korupsi" (fallback_text c7Item) = true
    ∧ (fallback_keyword_enrichment c7Item ⟨[], []⟩).sentiment = some "positive"
    ∧ ¬ ((fallback_keyword_enrichment c7Item ⟨[], []⟩).sentiment = some "negative") := by
  decide

/-- C8: `query_items` applies the `topics_any` intersection test only
after the primary-filtered rows have been truncated to `limit`; on the
concrete store the limit-1 query returns no rows even though a row
matching both the primary filters and the topic filter sits beyond the
limit window (the limit-2 query finds it). -/
theorem query_topics_postfilter :
    (∀ (st : Store) (since plat pub : Option String) (lim : Nat)
        (t : String) (ts : List String),
      query_items st since (some (t :: ts)) plat pub lim =
        ((st.filter (matchesPrimary since plat pub)).take lim).filter
          (fun r => (t :: ts).any fun x => (topicsOf r.2).contains x))
    ∧ query_items c8Store none (some ["a"]) none none 1 = []
    ∧ query_items c8Store none (some ["a"]) none none 2 = [("b8", c8ItemB)] := by
  refine ⟨fun st since plat pub lim t ts => rfl, ?_, ?_⟩ <;> decide

/-- The SHA-256 model matches the FIPS 180-4 test vector for `"abc"`. -/
theorem sha256_text_testvector_abc :
    sha256_text "abc"
      = "ba7816bf8f01cfea414140de5dae2223b00361a396177a9cb410ff61f20015ad" := by
  decide

/-- The SHA-256 model matches the FIPS 180-4 test vector for `""`. -/
theorem sha256_text_testvector_empty :
    sha256_text ""
      = "e3b0c44298fc1c149afbf4c8996fb92427ae41e4649b934ca495991b7852b855" := by
  decide

/-- C4 (amended): an item id is the hex-encoded SHA-256 digest of
`platform + "|" + url`; the function is pure (it respects equality of
its inputs); ids are 64 hex characters; and the concrete
trailing-slash pair yields distinct ids.  (SHA-256 is not injective, so
distinctness of ids for *all* distinct urls cannot hold — see the
counterexample.) -/
theorem make_id_props :
    (∀ p u, make_id p u = sha256_text (p ++ "|" ++ u))
    ∧ (∀ p₁ u₁ p₂ u₂, p₁ = p₂ → u₁ = u₂ → make_id p₁ u₁ = make_id p₂ u₂)
    ∧ (∀ p u, (make_id p u).length = 64)
    ∧ make_id "rss" "https://example.com/a" ≠ make_id "rss" "https://example.com/a/" := by
  refine ⟨fun p u => rfl, fun p₁ u₁ p₂ u₂ h1 h2 => by rw [h1, h2], ?_, by decide⟩
  intro p u
  show (String.mk (natToHex 64 (sha256Nat (utf8Bytes (p ++ "|" ++ u))))).length = 64
  show (natToHex 64 (sha256Nat (utf8Bytes (p ++ "|" ++ u)))).length = 64
  rw [natToHex_length]

/-- C4 witness: purity instantiated on concrete inputs. -/
theorem make_id_props_witness :
    make_id "rss" "https://example.com/a" = make_id "rss" "https://example.com/a" :=
  make_id_props.2.1 "rss" "https://example.com/a" "rss" "https://example.com/a" rfl rfl

/-- C4 counterexample: no 256-bit digest can be injective on the
infinitely many urls, so "distinct urls yield distinct ids" is false as
a universal statement — two distinct urls must collide. -/
theorem make_id_not_injective_cex :
    ¬ ∀ (platform u₁ u₂ : String), u₁ ≠ u₂ →
      make_id platform u₁ ≠ make_id platform u₂ := by
  intro h
  obtain ⟨m, n, hmn, heq⟩ := Finite.exists_ne_map_eq_of_infinite
    (fun k : Nat =>
      (⟨sha256Nat (utf8Bytes ("p" ++ "|" ++ aUrl k)),
        sha256Nat_lt (utf8Bytes ("p" ++ "|" ++ aUrl k))⟩ : Fin (2 ^ 256)))
  have hd : sha256Nat (utf8Bytes ("p" ++ "|" ++ aUrl m))
      = sha256Nat (utf8Bytes ("p" ++ "|" ++ aUrl n)) := congrArg Fin.val heq
  refine h "p" (aUrl m) (aUrl n) (fun he => hmn (aUrl_injective he)) ?_
  show String.mk (natToHex 64 (sha256Nat (utf8Bytes ("p" ++ "|" ++ aUrl m))))
      = String.mk (natToHex 64 (sha256Nat (utf8Bytes ("p" ++ "|" ++ aUrl n))))
  rw [hd]

end MediaMonitor
